import Mathlib

/-!
Shallow embedding of `src/api/index.py` (Terdl-api), a Flask video
shortener / CDN relay, together with theorems settling the spec claims.

Modelling conventions:
* Python dict keys may be ints or strings and `1 == "1"` is `False` in
  Python, so store keys are modelled by the sum type `PyKey`.
* The in-memory store `video_storage` is an association list in insertion
  order (newest first); `video_counter` and the storage together form a
  `StoreState`.
* Python truthiness on optional strings (`if not long_url`, `filename or
  "video.mp4"`) is modelled by `pyTruthy` / `pyOr`.
* The outbound HTTP library (`requests.get`) is a parameter: an oracle
  from the outbound call description to either a transport error text or
  an upstream response, matching the spec's mock-upstream scenarios.
-/

/-- A Python dict key: either an int or a str (these never compare equal). -/
inductive PyKey where
  | int : Nat → PyKey
  | str : String → PyKey
deriving DecidableEq, Repr

/-- The per-video record stored in `video_storage`:
`{"url": ..., "filename": ...}`. -/
structure StoredVideo where
  url : String
  filename : String
deriving DecidableEq, Repr

/-- The module-level mutable state: `video_counter` and `video_storage`. -/
structure StoreState where
  video_counter : Nat
  video_storage : List (PyKey × StoredVideo)
deriving Repr

/-- The state at interpreter start: `video_counter = 1`, empty storage. -/
def initState : StoreState := ⟨1, []⟩

/-- Python dict lookup on the association list (newest binding wins). -/
def lookupKey (st : List (PyKey × StoredVideo)) (k : PyKey) : Option StoredVideo :=
  match st with
  | [] => none
  | (k', v) :: rest => if k' = k then some v else lookupKey rest k

/-- Python truthiness of an optional string (`None` and `""` are falsy). -/
def pyTruthy (o : Option String) : Bool :=
  match o with
  | some s => s ≠ ""
  | none => false

/-- Python `o or d` for an optional string `o` and default `d`. -/
def pyOr (o : Option String) (d : String) : String :=
  match o with
  | some s => if s = "" then d else s
  | none => d

/-- `store_video_url(url, filename=None)`: allocate the current counter
value as id, store `{"url": url, "filename": filename or "video.mp4"}`,
increment the counter, return the id. -/
def store_video_url (s : StoreState) (url : String) (filename : Option String) :
    Nat × StoreState :=
  let vid := s.video_counter
  (vid, ⟨s.video_counter + 1,
         (PyKey.int vid, ⟨url, pyOr filename "video.mp4"⟩) :: s.video_storage⟩)

/-- Run a sequence of `store_video_url` calls, collecting the returned ids. -/
def runAllocs (s : StoreState) : List (String × Option String) → List Nat × StoreState
  | [] => ([], s)
  | (u, f) :: rest =>
      let p := store_video_url s u f
      let q := runAllocs p.2 rest
      (p.1 :: q.1, q.2)

/-- A store key is an int strictly below the counter value `c`. -/
def keyBelow (c : Nat) : PyKey → Bool
  | .int n => n < c
  | .str _ => false

/-- Store invariant: every key in `video_storage` is an int strictly less
than `video_counter`. -/
def StoreInv (s : StoreState) : Prop :=
  s.video_storage.all (fun p => keyBelow s.video_counter p.1) = true

/- ### The `/cdn/<video_id>` stream handler (`stream_video`) -/

/-- A Python object passed as the `url` argument of `requests.get`: the code
passes `video_storage[video_id]`, which is the whole dict, not the url
string. -/
inductive PyObj where
  | str : String → PyObj
  | dict : StoredVideo → PyObj
deriving DecidableEq, Repr

/-- The inbound request data `stream_video` reads: the `Range` and
`User-Agent` headers (absent = `None`). -/
structure InboundRequest where
  range : Option String
  userAgent : Option String
deriving DecidableEq, Repr

/-- One outbound `requests.get(original_url, headers=headers, stream=True,
timeout=30)` call, as observed by the upstream. -/
structure OutboundCall where
  url : PyObj
  headers : List (String × String)
  streaming : Bool
  timeout : Nat
deriving DecidableEq, Repr

/-- An upstream HTTP response (status, headers, raw body). Header lookup on
it is case-insensitive, as with `requests`' header dict. -/
structure UpstreamResponse where
  status : Nat
  headers : List (String × String)
  body : String
deriving DecidableEq, Repr

/-- The Flask `Response` built by the success path of `stream_video`. -/
structure FlaskResponse where
  status : Nat
  headers : List (String × String)
  body : String
deriving DecidableEq, Repr

/-- What a route handler returns: a JSON body with a status code
(`jsonify(...), code`), or a streamed Flask response. -/
inductive HttpResult where
  | json : List (String × String) → Nat → HttpResult
  | stream : FlaskResponse → HttpResult
deriving DecidableEq, Repr

/-- ASCII-lowercase a string. -/
def lowerStr (s : String) : String := String.mk (s.toList.map Char.toLower)

/-- Case-insensitive header lookup (requests / Werkzeug header dicts). -/
def getHeaderCI (hs : List (String × String)) (k : String) : Option String :=
  (hs.find? (fun p => lowerStr p.1 = lowerStr k)).map (·.2)

/-- Case-sensitive association lookup, for plain Python dicts of headers. -/
def getExact (hs : List (String × String)) (k : String) : Option String :=
  (hs.find? (fun p => p.1 = k)).map (·.2)

/-- The outbound header dict built by `stream_video` (lines 157-166):
fixed browser-like headers, plus `Range` copied verbatim when the inbound
value is truthy (`if range_header:` skips both an absent header and a
present-but-empty one). -/
def buildHeaders (req : InboundRequest) : List (String × String) :=
  let base := [("User-Agent", req.userAgent.getD "Mozilla/5.0"),
               ("Accept", "*/*"),
               ("Accept-Language", "en-US,en;q=0.9"),
               ("Accept-Encoding", "identity"),
               ("Connection", "keep-alive")]
  match req.range with
  | some r => if r = "" then base else base ++ [("Range", r)]
  | none => base

/-- Split a character list into chunks of at most `n` (`iter_content`). -/
def chunksOf (n : Nat) (l : List Char) : List (List Char) :=
  if h : l = [] then []
  else if hn : n = 0 then [l]
  else l.take n :: chunksOf n (l.drop n)
termination_by l.length
decreasing_by
  simp only [List.length_drop]
  have : 0 < l.length := List.length_pos.mpr h
  omega

/-- The body relayed by `generate()`: 8192-byte chunks of the upstream
body, empty chunks skipped, concatenated in order. -/
def relayBody (body : String) : String :=
  String.join (((chunksOf 8192 body.toList).filter (· ≠ [])).map String.mk)

/-- Lines 175-192: build the relayed Flask response from the upstream
response: status propagated, `Content-Type` copied (default `video/mp4`),
`Accept-Ranges: bytes` and `Cache-Control: public, max-age=3600`
synthesized, `Content-Length` added when upstream gave a truthy one,
`Content-Range` added when the upstream header dict contains it. -/
def relayResponse (resp : UpstreamResponse) : FlaskResponse :=
  let response_headers :=
    [("Content-Type", (getHeaderCI resp.headers "Content-Type").getD "video/mp4"),
     ("Accept-Ranges", "bytes"),
     ("Cache-Control", "public, max-age=3600")]
  let response_headers :=
    match getHeaderCI resp.headers "Content-Length" with
    | some cl => if cl = "" then response_headers
                 else response_headers ++ [("Content-Length", cl)]
    | none => response_headers
  let base : FlaskResponse := ⟨resp.status, response_headers, relayBody resp.body⟩
  match getHeaderCI resp.headers "Content-Range" with
  | some cr => { base with headers := base.headers ++ [("Content-Range", cr)] }
  | none => base

/-- `stream_video(video_id)` for route `/cdn/<video_id>`: `video_id` is the
route segment, a *string*. Returns the handler result together with the
list of outbound `requests.get` calls issued. `upstream` is the transport:
it yields either the upstream response or the text of a raised
`requests.exceptions.RequestException`. -/
def stream_video (storage : List (PyKey × StoredVideo)) (video_id : String)
    (req : InboundRequest) (upstream : OutboundCall → Except String UpstreamResponse) :
    HttpResult × List OutboundCall :=
  match lookupKey storage (PyKey.str video_id) with
  | none => (.json [("error", "Video not found")] 404, [])
  | some original_url =>
      let call : OutboundCall := ⟨PyObj.dict original_url, buildHeaders req, true, 30⟩
      match upstream call with
      | .ok resp => (.stream (relayResponse resp), [call])
      | .error e => (.json [("error", "Failed to stream video: " ++ e)] 500, [call])

/- ### URL validation (`validate_url`), with `unquote` and `urlsplit` -/

/-- Value of a hex digit, as accepted by percent-decoding. -/
def hexVal (c : Char) : Option Nat :=
  if '0' ≤ c ∧ c ≤ '9' then some (c.toNat - '0'.toNat)
  else if 'a' ≤ c ∧ c ≤ 'f' then some (c.toNat - 'a'.toNat + 10)
  else if 'A' ≤ c ∧ c ≤ 'F' then some (c.toNat - 'A'.toNat + 10)
  else none

/-- `urllib.parse.unquote` on characters: each `%XY` with hex digits
becomes the byte `0xXY`; malformed escapes pass through unchanged; never
raises (decoding errors are replaced). -/
def unquoteAux : List Char → List Char
  | [] => []
  | '%' :: a :: b :: rest =>
      match hexVal a, hexVal b with
      | some x, some y => Char.ofNat (16 * x + y) :: unquoteAux rest
      | _, _ => '%' :: unquoteAux (a :: b :: rest)
  | '%' :: a :: [] => '%' :: unquoteAux (a :: [])
  | '%' :: [] => ['%']
  | c :: rest => c :: unquoteAux rest

/-- `urllib.parse.unquote` on strings. -/
def unquote (s : String) : String := String.mk (unquoteAux s.toList)

/-- Characters allowed in a URL scheme after the first (letters, digits,
`+`, `-`, `.`). -/
def isSchemeChar (c : Char) : Bool :=
  c.isAlphanum || c = '+' || c = '-' || c = '.'

/-- Split a character list at its first `':'`, if any. -/
def splitOnColon : List Char → Option (List Char × List Char)
  | [] => none
  | c :: rest =>
      if c = ':' then some ([], rest)
      else (splitOnColon rest).map (fun p => (c :: p.1, p.2))

/-- `urlsplit`'s scheme extraction: if the text before the first `':'` is
nonempty, starts with an ASCII letter and is all scheme characters, it is
the (lowercased) scheme; otherwise the scheme is empty and nothing is
consumed. -/
def splitScheme (l : List Char) : String × List Char :=
  match splitOnColon l with
  | some (before, after) =>
      if before ≠ [] ∧ (before.headD ' ').isAlpha ∧ before.all isSchemeChar then
        (String.mk (before.map Char.toLower), after)
      else ("", l)
  | none => ("", l)

/-- `_splitnetloc`: take characters up to the first `'/'`, `'?'` or `'#'`. -/
def takeNetloc : List Char → List Char × List Char
  | [] => ([], [])
  | c :: rest =>
      if c = '/' ∨ c = '?' ∨ c = '#' then ([], c :: rest)
      else
        let p := takeNetloc rest
        (c :: p.1, p.2)

/-- The parts of `urlsplit`'s result that `validate_url` reads. -/
structure ParseResult where
  scheme : String
  netloc : String
deriving DecidableEq, Repr

/-- `urlsplit`'s input sanitation: strip leading C0 controls and space,
then remove every tab, CR and LF. -/
def removeUnsafe (l : List Char) : List Char :=
  (l.dropWhile (fun c => c.toNat ≤ 0x20)).filter
    (fun c => ¬ (c = '\t' ∨ c = '\n' ∨ c = '\r'))

/-- The netloc found after `"//"` in the post-scheme part of `l`. -/
def netlocOf (l : List Char) : List Char :=
  (takeNetloc ((splitScheme l).2.drop 2)).1

/-- `urllib.parse.urlsplit` on the sanitized character list (scheme/netloc
only): splits the scheme, then reads the netloc after `"//"`; raises
`ValueError` (modelled as `.error`) on an unbalanced IPv6 bracket in the
netloc. -/
def urlsplitL (l : List Char) : Except String ParseResult :=
  if (splitScheme l).2.take 2 = ['/', '/'] then
    if ('[' ∈ netlocOf l ∧ ']' ∉ netlocOf l) ∨
       (']' ∈ netlocOf l ∧ '[' ∉ netlocOf l) then
      .error "Invalid IPv6 URL"
    else
      .ok ⟨(splitScheme l).1, String.mk (netlocOf l)⟩
  else
    .ok ⟨(splitScheme l).1, ""⟩

/-- `urllib.parse.urlsplit` on strings. -/
def urlsplit (url : String) : Except String ParseResult :=
  urlsplitL (removeUnsafe url.toList)

/-- `validate_url(url)`: unquote, parse, require scheme `http`/`https` and
a nonempty netloc; any parse error yields `False` (the `except` clause). -/
def validate_url (url : String) : Bool :=
  match urlsplit (unquote url) with
  | .error _ => false
  | .ok parsed =>
      if ¬ (parsed.scheme = "http" ∨ parsed.scheme = "https") then false
      else if parsed.netloc = "" then false
      else true

/- ### `/shorten` and `/<filename>/download/<int:video_id>` -/

/-- The JSON reply of a successful `/shorten`. -/
structure ShortenOk where
  video_id : Nat
  short_url : String
  player_url : String
  cdn_url : String
  filename : String
deriving DecidableEq, Repr

/-- What `/shorten` returns: the success JSON or an error JSON with a
status code. -/
inductive ShortenResponse where
  | ok : ShortenOk → ShortenResponse
  | err : String → Nat → ShortenResponse
deriving DecidableEq, Repr

/-- Python `str.rstrip('/')`. -/
def rstripSlash (s : String) : String :=
  String.mk (s.toList.reverse.dropWhile (· = '/')).reverse

/-- The `/shorten` handler after input extraction: `long_url` and
`filename` are what the POST JSON body (or query string) provided, `host`
is `request.host_url`. -/
def shorten (s : StoreState) (host : String)
    (long_url : Option String) (filename : Option String) :
    ShortenResponse × StoreState :=
  if ¬ pyTruthy long_url then (.err "No URL provided." 400, s)
  else
    match long_url with
    | none => (.err "No URL provided." 400, s)
    | some u =>
        if ¬ validate_url u then (.err "Invalid URL." 400, s)
        else
          let p := store_video_url s u filename
          let vid := p.1
          let h := rstripSlash host
          (.ok ⟨vid,
                h ++ "/" ++ pyOr filename "video.mp4" ++ "/download/" ++ toString vid,
                h ++ "/player?vid=" ++ toString vid ++ "&name=" ++ pyOr filename "video.mp4",
                h ++ "/cdn/" ++ toString vid,
                pyOr filename "video.mp4"⟩, p.2)

/-- The template arguments of a rendered `player.html` page (HTTP 200). -/
structure PlayerPage where
  video_url : String
  original_url : String
  filename : String
deriving DecidableEq, Repr

/-- The fixed sentinel URL used for expired / unknown ids. -/
def expiredUrl : String := "https://effective-zebra-wqr496wpv6p3g6vx.github.dev/"

/-- `download_or_play(filename, video_id)` for route
`/<filename>/download/<int:video_id>`: the id is an *int* here. Renders
the player with the stored url, or the sentinel "Expired" page when the id
is not in the store. -/
def download_or_play (storage : List (PyKey × StoredVideo))
    (filename : String) (video_id : Nat) : PlayerPage :=
  match lookupKey storage (PyKey.int video_id) with
  | none => ⟨expiredUrl, expiredUrl, "Expired"⟩
  | some info => ⟨info.url, info.url, pyOr (some filename) info.filename⟩

/- ### A well-formedness grammar for absolute http/https URLs (spec C4) -/

/-- Characters admitted in a host name: letters, digits, `.`, `-`. -/
def isHostChar (c : Char) : Bool :=
  c.isAlphanum || c = '.' || c = '-'

/-- Characters admitted after the authority: printable ASCII without `%`
(percent-escapes in the path would be decoded before parsing, which the
grammar keeps out of scope). -/
def isTailChar (c : Char) : Bool :=
  0x21 ≤ c.toNat && c.toNat ≤ 0x7e && c ≠ '%'

/-- A well-formed absolute http/https URL:
`scheme "://" host [":" port] tail` with a lowercase scheme `http` or
`https`, a nonempty host of host characters, an optional decimal port,
and a tail that is empty or starts the path/query/fragment. -/
def wellFormedHttpUrl (u : String) : Prop :=
  ∃ (scheme : String) (host port tail : List Char),
    (scheme = "http" ∨ scheme = "https") ∧
    host ≠ [] ∧ host.all isHostChar = true ∧
    (port = [] ∨ ∃ ds, ds ≠ [] ∧ ds.all Char.isDigit = true ∧ port = ':' :: ds) ∧
    (tail = [] ∨ tail.headD ' ' = '/' ∨ tail.headD ' ' = '?' ∨ tail.headD ' ' = '#') ∧
    tail.all isTailChar = true ∧
    u.toList = scheme.toList ++ ':' :: '/' :: '/' :: (host ++ port ++ tail)

/-- The mock upstream of the spec's C1 scenario: always answers
`206 Partial Content` with body `"abcd"`. -/
def c1Upstream : OutboundCall → Except String UpstreamResponse :=
  fun _ => .ok ⟨206,
    [("Content-Type", "video/mp4"), ("Content-Length", "4"),
     ("Content-Range", "bytes 0-3/4")], "abcd"⟩

/-! ## Theorems -/

theorem runAllocs_fst (ops : List (String × Option String)) :
    ∀ s : StoreState, (runAllocs s ops).1 = List.range' s.video_counter ops.length := by
  induction ops with
  | nil => intro s; simp [runAllocs]
  | cons op rest ih =>
      intro s
      simp [runAllocs, store_video_url, List.range'_succ, ih]

/-- C2: for any sequence of N successful `store_video_url` calls starting
from the fresh state, the returned ids are exactly `1, 2, ..., N` in call
order (counter starts at 1, increases by exactly 1 per allocation), and in
particular they are pairwise distinct. -/
theorem allocate_ids_are_one_to_N (ops : List (String × Option String)) :
    (runAllocs initState ops).1 = List.range' 1 ops.length ∧
    (runAllocs initState ops).1.Nodup := by
  have h := runAllocs_fst ops initState
  refine ⟨h, ?_⟩
  rw [h]
  exact List.nodup_range' ..

theorem keyBelow_mono (c : Nat) (k : PyKey) (h : keyBelow c k = true) :
    keyBelow (c + 1) k = true := by
  cases k with
  | int n => simp [keyBelow] at h ⊢; omega
  | str t => simp [keyBelow] at h

theorem lookupKey_none_of_keyBelow (storage : List (PyKey × StoredVideo))
    (c : Nat) (k : PyKey)
    (hall : storage.all (fun p => keyBelow c p.1) = true)
    (hk : keyBelow c k = false) : lookupKey storage k = none := by
  induction storage with
  | nil => rfl
  | cons p rest ih =>
      obtain ⟨k', v⟩ := p
      simp only [List.all_cons, Bool.and_eq_true] at hall
      have hne : k' ≠ k := by
        intro he
        rw [he] at hall
        rw [hall.1] at hk
        exact Bool.noConfusion hk
      simpa [lookupKey, hne] using ih hall.2

theorem storeInv_store (s : StoreState) (url : String) (fn : Option String)
    (h : StoreInv s) : StoreInv (store_video_url s url fn).2 := by
  unfold StoreInv at h ⊢
  simp only [store_video_url, List.all_cons, Bool.and_eq_true]
  refine ⟨by simp [keyBelow], ?_⟩
  rw [List.all_eq_true] at h ⊢
  intro p hp
  exact keyBelow_mono _ _ (h p hp)

theorem storeInv_runAllocs (ops : List (String × Option String)) :
    ∀ s : StoreState, StoreInv s → StoreInv (runAllocs s ops).2 := by
  induction ops with
  | nil => intro s h; exact h
  | cons op rest ih =>
      intro s h
      exact ih _ (storeInv_store s op.1 op.2 h)

theorem storeInv_init : StoreInv initState := rfl

/-- C10: every `store_video_url` call leaves all previously stored
entries unchanged (an entry, once created, is never mutated or deleted),
and after any sequence of allocations from the fresh state every key in
the store is an int strictly less than the counter. -/
theorem store_preserves_entries_and_counter_bound :
    (∀ ops : List (String × Option String), StoreInv (runAllocs initState ops).2) ∧
    (∀ (s : StoreState) (url : String) (fn : Option String), StoreInv s →
      ∀ k v, lookupKey s.video_storage k = some v →
        lookupKey ((store_video_url s url fn).2).video_storage k = some v) := by
  constructor
  · intro ops
    exact storeInv_runAllocs ops initState storeInv_init
  · intro s url fn hinv k v hlook
    have hne : PyKey.int s.video_counter ≠ k := by
      intro he
      have : lookupKey s.video_storage k = none :=
        lookupKey_none_of_keyBelow _ s.video_counter k hinv
          (by rw [← he]; simp [keyBelow])
      rw [this] at hlook
      exact Option.noConfusion hlook
    simpa [store_video_url, lookupKey, hne] using hlook

/-- Closed instance of `store_preserves_entries_and_counter_bound`: the
invariant after one allocation, and an entry surviving a second one. -/
theorem store_preserves_entries_witness :
    lookupKey ((store_video_url ⟨2, [(PyKey.int 1, ⟨"http://a/", "video.mp4"⟩)]⟩
        "http://b/" none).2).video_storage (PyKey.int 1)
      = some ⟨"http://a/", "video.mp4"⟩ :=
  store_preserves_entries_and_counter_bound.2
    ⟨2, [(PyKey.int 1, ⟨"http://a/", "video.mp4"⟩)]⟩ "http://b/" none
    (by rfl) (PyKey.int 1) ⟨"http://a/", "video.mp4"⟩ rfl

/-- C3: for every id `n` ever returned by `store_video_url`, the
`/cdn/<video_id>` handler receives the route parameter as the *string*
`toString n`, while the store keys are ints, so the membership test fails:
the handler returns the 404 "Video not found" JSON error and issues no
upstream request. -/
theorem cdn_lookup_always_misses :
    ∀ (ops : List (String × Option String)) (n : Nat) (req : InboundRequest)
      (upstream : OutboundCall → Except String UpstreamResponse),
      stream_video ((runAllocs initState ops).2).video_storage (toString n) req upstream
        = (.json [("error", "Video not found")] 404, []) := by
  intro ops n req upstream
  have hinv := storeInv_runAllocs ops initState storeInv_init
  have hnone : lookupKey ((runAllocs initState ops).2).video_storage
      (PyKey.str (toString n)) = none :=
    lookupKey_none_of_keyBelow _ ((runAllocs initState ops).2).video_counter _
      hinv (by simp [keyBelow])
  simp [stream_video, hnone]

/-- C6: `stream_video` on an id that does not resolve in the store
returns the 404 JSON error and makes no outbound request at all. -/
theorem stream_unresolved_404_no_call :
    ∀ (storage : List (PyKey × StoredVideo)) (id : String) (req : InboundRequest)
      (upstream : OutboundCall → Except String UpstreamResponse),
      lookupKey storage (PyKey.str id) = none →
      stream_video storage id req upstream
        = (.json [("error", "Video not found")] 404, []) := by
  intro storage id req upstream h
  simp [stream_video, h]

/-- Closed instance of `stream_unresolved_404_no_call` on the empty store. -/
theorem stream_unresolved_404_witness :
    stream_video [] "1" ⟨none, none⟩ c1Upstream
      = (.json [("error", "Video not found")] 404, []) :=
  stream_unresolved_404_no_call [] "1" ⟨none, none⟩ c1Upstream rfl

/-- C5: resolving a freshly allocated id on the player path returns a
page carrying the same stored url, and resolving an id absent from the
store returns the fixed sentinel URL labelled "Expired" (a rendered page,
not an HTTP error). -/
theorem resolve_roundtrip_and_expired :
    (∀ (s : StoreState) (url : String) (fn : Option String) (fname : String),
       (download_or_play ((store_video_url s url fn).2).video_storage fname
          (store_video_url s url fn).1).video_url = url ∧
       (download_or_play ((store_video_url s url fn).2).video_storage fname
          (store_video_url s url fn).1).original_url = url) ∧
    (∀ (storage : List (PyKey × StoredVideo)) (fname : String) (id : Nat),
       lookupKey storage (PyKey.int id) = none →
       download_or_play storage fname id = ⟨expiredUrl, expiredUrl, "Expired"⟩) := by
  constructor
  · intro s url fn fname
    simp [download_or_play, store_video_url, lookupKey]
  · intro storage fname id h
    simp [download_or_play, h]

/-- Closed instance of `resolve_roundtrip_and_expired`: a stored url round
trips, and the empty store yields the Expired page. -/
theorem resolve_roundtrip_witness :
    (download_or_play ((store_video_url initState "http://a/v.mp4" none).2).video_storage
       "f.mp4" (store_video_url initState "http://a/v.mp4" none).1).video_url
      = "http://a/v.mp4" ∧
    download_or_play [] "f.mp4" 7 = ⟨expiredUrl, expiredUrl, "Expired"⟩ :=
  ⟨(resolve_roundtrip_and_expired.1 initState "http://a/v.mp4" none "f.mp4").1,
   resolve_roundtrip_and_expired.2 [] "f.mp4" 7 rfl⟩

/-- Unfolding of `stream_video` when the lookup succeeds. -/
theorem stream_video_some (storage : List (PyKey × StoredVideo)) (id : String)
    (req : InboundRequest) (upstream : OutboundCall → Except String UpstreamResponse)
    (v : StoredVideo) (h : lookupKey storage (PyKey.str id) = some v) :
    stream_video storage id req upstream =
      match upstream ⟨PyObj.dict v, buildHeaders req, true, 30⟩ with
      | .ok resp =>
          (.stream (relayResponse resp), [⟨PyObj.dict v, buildHeaders req, true, 30⟩])
      | .error e =>
          (.json [("error", "Failed to stream video: " ++ e)] 500,
           [⟨PyObj.dict v, buildHeaders req, true, 30⟩]) := by
  unfold stream_video
  rw [h]

/-- C7: when the id resolves, exactly one outbound call is made, and its
header dict forwards the inbound `Range` header verbatim whenever the code
forwards it at all, i.e. when its value is truthy (`if range_header:`); an
absent inbound `Range` header yields an outbound dict without one. -/
theorem stream_forwards_range_header :
    ∀ (storage : List (PyKey × StoredVideo)) (id : String) (req : InboundRequest)
      (upstream : OutboundCall → Except String UpstreamResponse) (v : StoredVideo),
      lookupKey storage (PyKey.str id) = some v →
      ∃ call, (stream_video storage id req upstream).2 = [call] ∧
        (∀ r, req.range = some r → r ≠ "" →
           getExact call.headers "Range" = some r) ∧
        (req.range = none → getExact call.headers "Range" = none) := by
  intro storage id req upstream v h
  refine ⟨⟨PyObj.dict v, buildHeaders req, true, 30⟩, ?_, ?_, ?_⟩
  · rw [stream_video_some storage id req upstream v h]
    cases upstream ⟨PyObj.dict v, buildHeaders req, true, 30⟩ <;> rfl
  · intro r hr hne
    simp [buildHeaders, getExact, hr, hne]
  · intro hr
    simp [buildHeaders, getExact, hr]

/-- Closed instance of `stream_forwards_range_header` with a Range header. -/
theorem stream_forwards_range_witness :
    ∃ call,
      (stream_video [(PyKey.str "1", ⟨"http://a/v.mp4", "video.mp4"⟩)] "1"
        ⟨some "bytes=0-99", none⟩ c1Upstream).2 = [call] ∧
      getExact call.headers "Range" = some "bytes=0-99" := by
  obtain ⟨call, hcall, hfwd, _⟩ :=
    stream_forwards_range_header [(PyKey.str "1", ⟨"http://a/v.mp4", "video.mp4"⟩)]
      "1" ⟨some "bytes=0-99", none⟩ c1Upstream ⟨"http://a/v.mp4", "video.mp4"⟩ rfl
  exact ⟨call, hcall, hfwd "bytes=0-99" rfl (by decide)⟩

/-- C9: at most one upstream attempt is ever made per inbound request;
when the id resolves, the single attempt carries `timeout = 30`, and if
the transport raises, the handler returns the HTTP 500 JSON error whose
message contains the underlying error text. -/
theorem stream_failure_timeout_single_attempt :
    (∀ (storage : List (PyKey × StoredVideo)) (id : String) (req : InboundRequest)
       (upstream : OutboundCall → Except String UpstreamResponse),
       (stream_video storage id req upstream).2.length ≤ 1) ∧
    (∀ (storage : List (PyKey × StoredVideo)) (id : String) (req : InboundRequest)
       (upstream : OutboundCall → Except String UpstreamResponse) (v : StoredVideo),
       lookupKey storage (PyKey.str id) = some v →
       (∃ call, (stream_video storage id req upstream).2 = [call] ∧
          call.timeout = 30) ∧
       (∀ e, upstream ⟨PyObj.dict v, buildHeaders req, true, 30⟩ = .error e →
          (stream_video storage id req upstream).1
            = .json [("error", "Failed to stream video: " ++ e)] 500 ∧
          ∃ a b, "Failed to stream video: " ++ e = a ++ e ++ b)) := by
  constructor
  · intro storage id req upstream
    cases h : lookupKey storage (PyKey.str id) with
    | none => simp [stream_video, h]
    | some v =>
        rw [stream_video_some storage id req upstream v h]
        cases upstream ⟨PyObj.dict v, buildHeaders req, true, 30⟩ <;> simp
  · intro storage id req upstream v h
    constructor
    · refine ⟨⟨PyObj.dict v, buildHeaders req, true, 30⟩, ?_, rfl⟩
      rw [stream_video_some storage id req upstream v h]
      cases upstream ⟨PyObj.dict v, buildHeaders req, true, 30⟩ <;> rfl
    · intro e he
      refine ⟨?_, "Failed to stream video: ", "", by simp⟩
      rw [stream_video_some storage id req upstream v h, he]

/-- Closed instance of `stream_failure_timeout_single_attempt`: a failing
transport yields the 500 JSON with the error text, one attempt, timeout 30. -/
theorem stream_failure_witness :
    (∃ call,
      (stream_video [(PyKey.str "1", ⟨"http://a/v.mp4", "video.mp4"⟩)] "1"
        ⟨none, none⟩ (fun _ => .error "timed out")).2 = [call] ∧
      call.timeout = 30) ∧
    (stream_video [(PyKey.str "1", ⟨"http://a/v.mp4", "video.mp4"⟩)] "1"
        ⟨none, none⟩ (fun _ => .error "timed out")).1
      = .json [("error", "Failed to stream video: timed out")] 500 :=
  ⟨(stream_failure_timeout_single_attempt.2
      [(PyKey.str "1", ⟨"http://a/v.mp4", "video.mp4"⟩)] "1" ⟨none, none⟩
      (fun _ => .error "timed out") ⟨"http://a/v.mp4", "video.mp4"⟩ rfl).1,
   ((stream_failure_timeout_single_attempt.2
      [(PyKey.str "1", ⟨"http://a/v.mp4", "video.mp4"⟩)] "1" ⟨none, none⟩
      (fun _ => .error "timed out") ⟨"http://a/v.mp4", "video.mp4"⟩ rfl).2
      "timed out" rfl).1⟩

/-- C8: the relayed response propagates the upstream status unchanged,
copies `Content-Type` (default `video/mp4` when absent), synthesizes
`Accept-Ranges: bytes` and `Cache-Control: public, max-age=3600`, and
forwards `Content-Length` (when truthy) and `Content-Range` exactly when
the upstream provided them; on a successful upstream response the handler
returns exactly this relayed response. -/
theorem relay_response_spec :
    (∀ resp : UpstreamResponse,
       (relayResponse resp).status = resp.status ∧
       getExact (relayResponse resp).headers "Content-Type"
         = some ((getHeaderCI resp.headers "Content-Type").getD "video/mp4") ∧
       getExact (relayResponse resp).headers "Accept-Ranges" = some "bytes" ∧
       getExact (relayResponse resp).headers "Cache-Control"
         = some "public, max-age=3600" ∧
       (∀ cl, getHeaderCI resp.headers "Content-Length" = some cl → cl ≠ "" →
          getExact (relayResponse resp).headers "Content-Length" = some cl) ∧
       (∀ cr, getHeaderCI resp.headers "Content-Range" = some cr →
          getExact (relayResponse resp).headers "Content-Range" = some cr)) ∧
    (∀ (storage : List (PyKey × StoredVideo)) (id : String) (req : InboundRequest)
       (upstream : OutboundCall → Except String UpstreamResponse)
       (v : StoredVideo) (resp : UpstreamResponse),
       lookupKey storage (PyKey.str id) = some v →
       upstream ⟨PyObj.dict v, buildHeaders req, true, 30⟩ = .ok resp →
       (stream_video storage id req upstream).1 = .stream (relayResponse resp)) := by
  constructor
  · intro resp
    cases hcl : getHeaderCI resp.headers "Content-Length" with
    | none =>
        cases hcr : getHeaderCI resp.headers "Content-Range" <;>
          simp [relayResponse, hcl, hcr, getExact]
    | some cl =>
        by_cases he : cl = "" <;>
          cases hcr : getHeaderCI resp.headers "Content-Range" <;>
            simp [relayResponse, hcl, hcr, he, getExact]
  · intro storage id req upstream v resp h hup
    rw [stream_video_some storage id req upstream v h, hup]

/-- Closed instance of `relay_response_spec` on a 206 upstream response
carrying `Content-Length` and `Content-Range`. -/
theorem relay_response_witness :
    (relayResponse ⟨206, [("Content-Type", "video/mp4"), ("Content-Length", "4"),
        ("Content-Range", "bytes 0-3/4")], "abcd"⟩).status = 206 ∧
    getExact (relayResponse ⟨206, [("Content-Type", "video/mp4"),
        ("Content-Length", "4"), ("Content-Range", "bytes 0-3/4")],
        "abcd"⟩).headers "Content-Length" = some "4" ∧
    (stream_video [(PyKey.str "1", ⟨"http://a/v.mp4", "video.mp4"⟩)] "1"
        ⟨none, none⟩ c1Upstream).1
      = .stream (relayResponse ⟨206, [("Content-Type", "video/mp4"),
          ("Content-Length", "4"), ("Content-Range", "bytes 0-3/4")], "abcd"⟩) := by
  refine ⟨(relay_response_spec.1 _).1, ?_, ?_⟩
  · exact (relay_response_spec.1 ⟨206, [("Content-Type", "video/mp4"),
      ("Content-Length", "4"), ("Content-Range", "bytes 0-3/4")],
      "abcd"⟩).2.2.2.2.1 "4" rfl (by decide)
  · exact relay_response_spec.2 [(PyKey.str "1", ⟨"http://a/v.mp4", "video.mp4"⟩)]
      "1" ⟨none, none⟩ c1Upstream ⟨"http://a/v.mp4", "video.mp4"⟩
      ⟨206, [("Content-Type", "video/mp4"), ("Content-Length", "4"),
        ("Content-Range", "bytes 0-3/4")], "abcd"⟩ rfl rfl

/-- C1 (the spec scenario, which the code fails): on a fresh store the
POST to `/shorten` does return `video_id = 1` with `cdn_url` ending in
`/cdn/1`, but the subsequent `GET /cdn/1` returns the 404 "Video not
found" error and never contacts the upstream, even against a mock
upstream answering 206 with body `"abcd"`: the `/cdn` route parameter is
the string `"1"` while the store key is the int `1`. -/
theorem shorten_then_cdn_scenario :
    (shorten initState "http://h/" (some "http://example.com/v.mp4") none).1
      = .ok ⟨1, "http://h/video.mp4/download/1",
             "http://h/player?vid=1&name=video.mp4",
             "http://h/cdn/1", "video.mp4"⟩ ∧
    stream_video
        ((shorten initState "http://h/" (some "http://example.com/v.mp4") none).2).video_storage
        "1" ⟨none, none⟩ c1Upstream
      = (.json [("error", "Video not found")] 404, []) := by
  constructor <;> rfl

theorem unquoteAux_no_percent (l : List Char) :
    (∀ c ∈ l, c ≠ '%') → unquoteAux l = l := by
  induction l with
  | nil => intro _; rfl
  | cons c rest ih =>
      intro h
      have hc : c ≠ '%' := h c (List.mem_cons_self c rest)
      have ht : unquoteAux rest = rest :=
        ih (fun x hx => h x (List.mem_cons_of_mem c hx))
      cases rest with
      | nil => simp [unquoteAux, hc]
      | cons a rest' =>
          cases rest' with
          | nil => simp [unquoteAux, hc, ht]
          | cons b rest'' => simp [unquoteAux, hc, ht]

theorem splitOnColon_append (a b : List Char) (h : ':' ∉ a) :
    splitOnColon (a ++ ':' :: b) = some (a, b) := by
  induction a with
  | nil => simp [splitOnColon]
  | cons c a' ih =>
      have hc : ¬ c = ':' := fun he => h (he ▸ List.mem_cons_self c a')
      have ha' : ':' ∉ a' := fun hm => h (List.mem_cons_of_mem c hm)
      simp [splitOnColon, hc, ih ha']

theorem takeNetloc_append (n t : List Char)
    (hn : ∀ c ∈ n, ¬(c = '/' ∨ c = '?' ∨ c = '#'))
    (ht : t = [] ∨ ∃ c' t', t = c' :: t' ∧ (c' = '/' ∨ c' = '?' ∨ c' = '#')) :
    (takeNetloc (n ++ t)).1 = n := by
  induction n with
  | nil =>
      rcases ht with rfl | ⟨c', t', rfl, hd⟩
      · rfl
      · simp [takeNetloc, hd]
  | cons c n' ih =>
      have hc := hn c (List.mem_cons_self c n')
      have hn' := fun x hx => hn x (List.mem_cons_of_mem c hx)
      simp [takeNetloc, hc, ih hn']

theorem splitScheme_append (sch rest : List Char)
    (h1 : ':' ∉ sch) (h2 : sch ≠ [])
    (h3 : (sch.headD ' ').isAlpha = true)
    (h4 : sch.all isSchemeChar = true)
    (h5 : sch.map Char.toLower = sch) :
    splitScheme (sch ++ ':' :: rest) = (String.mk sch, rest) := by
  rw [List.headD_eq_head?] at h3
  unfold splitScheme
  rw [splitOnColon_append sch rest h1]
  simp [h2, h3, h4, h5]

theorem hostChar_safe (c : Char) (h : isHostChar c = true) :
    ¬(c = '/' ∨ c = '?' ∨ c = '#') ∧ c ≠ '[' ∧ c ≠ ']' ∧ c ≠ '%' ∧
    ¬(c = '\t' ∨ c = '\n' ∨ c = '\r') := by
  refine ⟨?_, ?_, ?_, ?_, ?_⟩
  · rintro (rfl | rfl | rfl) <;> exact absurd h (by decide)
  · rintro rfl; exact absurd h (by decide)
  · rintro rfl; exact absurd h (by decide)
  · rintro rfl; exact absurd h (by decide)
  · rintro (rfl | rfl | rfl) <;> exact absurd h (by decide)

theorem digitChar_safe (c : Char) (h : c.isDigit = true) :
    ¬(c = '/' ∨ c = '?' ∨ c = '#') ∧ c ≠ '[' ∧ c ≠ ']' ∧ c ≠ '%' ∧
    ¬(c = '\t' ∨ c = '\n' ∨ c = '\r') := by
  refine ⟨?_, ?_, ?_, ?_, ?_⟩
  · rintro (rfl | rfl | rfl) <;> exact absurd h (by decide)
  · rintro rfl; exact absurd h (by decide)
  · rintro rfl; exact absurd h (by decide)
  · rintro rfl; exact absurd h (by decide)
  · rintro (rfl | rfl | rfl) <;> exact absurd h (by decide)

theorem tailChar_safe (c : Char) (h : isTailChar c = true) :
    c ≠ '%' ∧ ¬(c = '\t' ∨ c = '\n' ∨ c = '\r') := by
  refine ⟨?_, ?_⟩
  · rintro rfl; exact absurd h (by decide)
  · rintro (rfl | rfl | rfl) <;> exact absurd h (by decide)


theorem removeUnsafe_id (l : List Char)
    (h0 : ∀ c ∈ l.take 1, ¬ c.toNat ≤ 0x20)
    (h1 : ∀ c ∈ l, ¬(c = '\t' ∨ c = '\n' ∨ c = '\r')) : removeUnsafe l = l := by
  unfold removeUnsafe
  cases l with
  | nil => rfl
  | cons c0 rest =>
      rw [List.dropWhile_cons]
      rw [if_neg (by
        simp only [decide_eq_true_eq]
        exact h0 c0 (by simp))]
      rw [List.filter_eq_self]
      intro c hc
      rw [decide_eq_true_eq]
      exact h1 c hc

theorem urlsplitL_wf (sch host port tail : List Char)
    (hs1 : ':' ∉ sch) (hs2 : sch ≠ [])
    (hs3 : (sch.headD ' ').isAlpha = true)
    (hs4 : sch.all isSchemeChar = true)
    (hs5 : sch.map Char.toLower = sch)
    (hh : ∀ c ∈ host, isHostChar c = true)
    (hp : port = [] ∨ ∃ ds, ds ≠ [] ∧ ds.all Char.isDigit = true ∧ port = ':' :: ds)
    (ht0 : tail = [] ∨ tail.headD ' ' = '/' ∨ tail.headD ' ' = '?' ∨ tail.headD ' ' = '#')
    : urlsplitL (sch ++ ':' :: '/' :: '/' :: (host ++ port ++ tail))
      = .ok ⟨String.mk sch, String.mk (host ++ port)⟩ := by
  have hpsafe : ∀ c ∈ port,
      ¬(c = '/' ∨ c = '?' ∨ c = '#') ∧ c ≠ '[' ∧ c ≠ ']' := by
    rcases hp with rfl | ⟨ds, hds0, hdsall, rfl⟩
    · intro c hc; exact absurd hc (List.not_mem_nil c)
    · intro c hc
      rcases List.mem_cons.mp hc with rfl | hcd
      · exact ⟨by rintro (h | h | h) <;> simp at h, by decide, by decide⟩
      · have hd := digitChar_safe c (by
          rw [List.all_eq_true] at hdsall
          exact hdsall c hcd)
        exact ⟨hd.1, hd.2.1, hd.2.2.1⟩
  have hnet : netlocOf (sch ++ ':' :: '/' :: '/' :: (host ++ port ++ tail))
      = host ++ port := by
    unfold netlocOf
    rw [splitScheme_append sch _ hs1 hs2 hs3 hs4 hs5]
    show (takeNetloc (host ++ port ++ tail)).1 = host ++ port
    apply takeNetloc_append
    · intro c hc
      rcases List.mem_append.mp hc with hch | hcp
      · exact (hostChar_safe c (hh c hch)).1
      · exact (hpsafe c hcp).1
    · rcases ht0 with rfl | hh1 | hh1 | hh1
      · exact Or.inl rfl
      all_goals
        cases tail with
        | nil => exact Or.inl rfl
        | cons c' t' =>
            simp only [List.headD] at hh1
            subst hh1
            exact Or.inr ⟨_, t', rfl, by simp⟩
  unfold urlsplitL
  rw [splitScheme_append sch _ hs1 hs2 hs3 hs4 hs5, hnet]
  dsimp only
  have htake : List.take 2 ('/' :: '/' :: (host ++ port ++ tail)) = ['/', '/'] := rfl
  rw [if_pos htake]
  rw [if_neg (by
    have hl : '[' ∉ host ++ port := by
      intro hm
      rcases List.mem_append.mp hm with hch | hcp
      · exact (hostChar_safe _ (hh _ hch)).2.1 rfl
      · exact (hpsafe _ hcp).2.1 rfl
    have hr : ']' ∉ host ++ port := by
      intro hm
      rcases List.mem_append.mp hm with hch | hcp
      · exact (hostChar_safe _ (hh _ hch)).2.2.1 rfl
      · exact (hpsafe _ hcp).2.2 rfl
    rintro (⟨hm, _⟩ | ⟨hm, _⟩)
    · exact hl hm
    · exact hr hm)]

theorem validate_wf_aux (u : String) (sch : String) (host port tail : List Char)
    (hs1 : ':' ∉ sch.toList) (hs2 : sch.toList ≠ [])
    (hs3 : (sch.toList.headD ' ').isAlpha = true)
    (hs4 : sch.toList.all isSchemeChar = true)
    (hs5 : sch.toList.map Char.toLower = sch.toList)
    (hs6 : ∀ c ∈ sch.toList.take 1, ¬ c.toNat ≤ 0x20)
    (hs7 : ∀ c ∈ sch.toList, c ≠ '%' ∧ ¬(c = '\t' ∨ c = '\n' ∨ c = '\r'))
    (hsch_ok : sch = "http" ∨ sch = "https")
    (hh0 : host ≠ []) (hhall : ∀ c ∈ host, isHostChar c = true)
    (hport : port = [] ∨ ∃ ds, ds ≠ [] ∧ ds.all Char.isDigit = true ∧ port = ':' :: ds)
    (htail0 : tail = [] ∨ tail.headD ' ' = '/' ∨ tail.headD ' ' = '?' ∨ tail.headD ' ' = '#')
    (htailall : ∀ c ∈ tail, isTailChar c = true)
    (heq : u.toList = sch.toList ++ ':' :: '/' :: '/' :: (host ++ port ++ tail)) :
    validate_url u = true := by
  have hport_safe : ∀ c ∈ port, c ≠ '%' ∧ ¬(c = '\t' ∨ c = '\n' ∨ c = '\r') := by
    rcases hport with rfl | ⟨ds, hds0, hdsall, rfl⟩
    · intro c hc; exact absurd hc (List.not_mem_nil c)
    · rw [List.all_eq_true] at hdsall
      intro c hc
      rcases List.mem_cons.mp hc with rfl | hcd
      · exact ⟨by decide, by rintro (h | h | h) <;> simp at h⟩
      · have hd := digitChar_safe c (hdsall c hcd)
        exact ⟨hd.2.2.2.1, hd.2.2.2.2⟩
  have hsafe : ∀ c ∈ sch.toList ++ ':' :: '/' :: '/' :: (host ++ port ++ tail),
      c ≠ '%' ∧ ¬(c = '\t' ∨ c = '\n' ∨ c = '\r') := by
    intro c hc
    rcases List.mem_append.mp hc with hcs | hcr
    · exact hs7 c hcs
    · rcases List.mem_cons.mp hcr with rfl | hcr1
      · exact ⟨by decide, by rintro (h | h | h) <;> simp at h⟩
      rcases List.mem_cons.mp hcr1 with rfl | hcr2
      · exact ⟨by decide, by rintro (h | h | h) <;> simp at h⟩
      rcases List.mem_cons.mp hcr2 with rfl | hcr3
      · exact ⟨by decide, by rintro (h | h | h) <;> simp at h⟩
      rcases List.mem_append.mp hcr3 with hchp | hct
      · rcases List.mem_append.mp hchp with hch | hcp
        · have hhs := hostChar_safe c (hhall c hch)
          exact ⟨hhs.2.2.2.1, hhs.2.2.2.2⟩
        · exact hport_safe c hcp
      · exact tailChar_safe c (htailall c hct)
  have hnp : ∀ c ∈ u.toList, c ≠ '%' := by
    rw [heq]; exact fun c hc => (hsafe c hc).1
  have huq : unquote u = u := by
    unfold unquote
    rw [unquoteAux_no_percent u.toList hnp]
    rfl
  have hrem : removeUnsafe u.toList = u.toList := by
    apply removeUnsafe_id
    · rw [heq, List.take_append_of_le_length
        (Nat.succ_le_of_lt (List.length_pos.mpr hs2))]
      exact hs6
    · rw [heq]; exact fun c hc => (hsafe c hc).2
  have hspl : urlsplit u = .ok ⟨String.mk sch.toList, String.mk (host ++ port)⟩ := by
    unfold urlsplit
    rw [hrem, heq]
    exact urlsplitL_wf sch.toList host port tail hs1 hs2 hs3 hs4 hs5 hhall hport htail0
  have hmk : String.mk sch.toList = sch := rfl
  rw [hmk] at hspl
  have hne : String.mk (host ++ port) ≠ "" := by
    intro hse
    have hnil : host ++ port = [] := congrArg String.data hse
    exact hh0 (List.append_eq_nil.mp hnil).1
  unfold validate_url
  rw [huq, hspl]
  rcases hsch_ok with rfl | rfl <;> simp [hne]

/-- C4: `validate_url` accepts every well-formed absolute http/https
URL; whenever the decoded input parses with a scheme other than
`http`/`https` or an empty authority, or fails to parse at all, it
returns `false` (it is a total Boolean function, so no exception ever
propagates). -/
theorem validate_url_spec :
    (∀ u, wellFormedHttpUrl u → validate_url u = true) ∧
    (∀ u, (∀ p, urlsplit (unquote u) = .ok p →
            ¬(p.scheme = "http" ∨ p.scheme = "https") ∨ p.netloc = "") →
      validate_url u = false) := by
  constructor
  · rintro u ⟨scheme, host, port, tail, hsch, hh0, hhall, hport, htail0, htailall, heq⟩
    rw [List.all_eq_true] at hhall htailall
    rcases hsch with rfl | rfl
    · exact validate_wf_aux u "http" host port tail (by decide) (by decide)
        (by decide) (by decide) (by decide) (by decide) (by decide)
        (Or.inl rfl) hh0 hhall hport htail0 htailall heq
    · exact validate_wf_aux u "https" host port tail (by decide) (by decide)
        (by decide) (by decide) (by decide) (by decide) (by decide)
        (Or.inr rfl) hh0 hhall hport htail0 htailall heq
  · intro u h
    unfold validate_url
    cases hp : urlsplit (unquote u) with
    | error e => rfl
    | ok p =>
        dsimp only
        rcases h p hp with hbad | hbad
        · rw [if_pos hbad]
        · by_cases hA : ¬(p.scheme = "http" ∨ p.scheme = "https")
          · rw [if_pos hA]
          · rw [if_neg hA, if_pos hbad]

/-- Closed instance of `validate_url_spec`: a well-formed URL validates,
and an `ftp` URL is rejected. -/
theorem validate_url_witness :
    validate_url "http://example.com/v.mp4" = true ∧
    validate_url "ftp://example.com" = false := by
  constructor
  · exact validate_url_spec.1 "http://example.com/v.mp4"
      ⟨"http", "example.com".toList, [], "/v.mp4".toList, Or.inl rfl,
       by decide, by decide, Or.inl rfl, by decide, by decide, by decide⟩
  · apply validate_url_spec.2
    intro p hp
    have he : urlsplit (unquote "ftp://example.com")
        = .ok ⟨"ftp", "example.com"⟩ := rfl
    rw [he, Except.ok.injEq] at hp
    subst hp
    left
    decide
